import Mathlib

/-!
Shallow embedding of the exam-session engine of a math-competition backend:
the question bank (models/Question.js), per-candidate test documents and the
global settings singleton (models/Test.js, models/Settings.js), the user
document (models/User.js), the test controller (controllers/testController.js),
the admin controller (controllers/adminController.js) and the test generator
(utils/testGenerator.js).

Conventions: timestamps are natural numbers of milliseconds; Mongo document
ids are natural numbers; the question collection is a list of Question
documents. A mongoose method that can throw is modelled as returning an error
value together with the persisted state; every throwing path of the embedded
methods happens before the corresponding save call in the source, so on an
error the persisted state is returned unchanged.
-/

/-- Question document (models/Question.js): the fields the engine reads. -/
structure Question where
  qid : Nat
  correctAnswer : Nat
  points : Nat
  difficulty : String
  isActive : Bool
  usageCount : Nat
  explanation : String
deriving DecidableEq

/-- Answer subdocument of a test (answerSchema in models/Test.js). -/
structure Answer where
  questionId : Nat
  selectedAnswer : Nat
  isCorrect : Bool
  points : Nat
  answeredAt : Nat
deriving DecidableEq

/-- Test document (testSchema in models/Test.js). -/
structure Test where
  questions : List Nat
  answers : List Answer
  score : Nat
  maxScore : Nat
  isCompleted : Bool
  startedAt : Option Nat
  completedAt : Option Nat
  timeSpent : Nat
  ipAddress : Option String
  userAgent : Option String
deriving DecidableEq

/-- User document fields used by the test flow (models/User.js). -/
structure User where
  userId : Nat
  testId : Option Nat
  hasStartedTest : Bool
  testStartTime : Option Nat
  testEndTime : Option Nat
deriving DecidableEq

/-- Settings document (settingsSchema in models/Settings.js). -/
structure Settings where
  testDuration : Nat
  testStarted : Bool
  questionsPerTest : Nat
  testStartTime : Option Nat
  testEndTime : Option Nat
  allowLateSubmission : Bool
  showResultsImmediately : Bool
  showCorrectAnswers : Bool
  randomizeQuestions : Bool
  randomizeOptions : Bool
  maxAttempts : Nat
  passingScore : Nat
  instructions : String
  welcomeMessage : String
  isActive : Bool
  lastModifiedBy : Nat
deriving DecidableEq

/-- Question.findById over the question collection. The argument is the
optional id read from the questions array of a test: reading past the end of
a JavaScript array yields undefined, and findById of undefined resolves to
null, which the none case captures. -/
def findById (db : List Question) (qid : Option Nat) : Option Question :=
  match qid with
  | none => none
  | some i => db.find? (fun q => q.qid == i)

/-- questionSchema.methods.incrementUsage (models/Question.js lines 152-155):
usageCount += 1 followed by save, applied to the stored collection. -/
def incrementUsage (db : List Question) (i : Nat) : List Question :=
  db.map (fun q => if q.qid == i then { q with usageCount := q.usageCount + 1 } else q)

/-- Errors thrown by testSchema.methods.submitAnswer; incrementFailed stands
for a rejection of the awaited incrementUsage save. -/
inductive SubmitError where
  | alreadyCompleted
  | invalidSequence
  | questionNotFound
  | incrementFailed
deriving DecidableEq

/-- Value returned by testSchema.methods.submitAnswer on success. -/
structure SubmitOk where
  isCorrect : Bool
  points : Nat
  correctAnswer : Nat
  explanation : String
deriving DecidableEq

/-- testSchema.methods.submitAnswer (models/Test.js lines 122-162). Returns
the outcome together with the persisted test document and question
collection. The incrementOk flag says whether the awaited incrementUsage
save succeeds; when it fails the method throws after the in-memory push but
before the save of the test, so the persisted test is unchanged and the
pushed answer is lost. -/
def Test.submitAnswer (t : Test) (db : List Question) (questionIndex : Nat)
    (selectedAnswer : Nat) (now : Nat) (incrementOk : Bool) :
    Except SubmitError SubmitOk × Test × List Question :=
  if t.isCompleted then (Except.error SubmitError.alreadyCompleted, t, db)
  else if questionIndex ≠ t.answers.length then
    (Except.error SubmitError.invalidSequence, t, db)
  else
    match findById db t.questions[questionIndex]? with
    | none => (Except.error SubmitError.questionNotFound, t, db)
    | some question =>
      let isCorrect := selectedAnswer == question.correctAnswer
      let points := if isCorrect then question.points else 0
      if incrementOk then
        (Except.ok ⟨isCorrect, points, question.correctAnswer, question.explanation⟩,
          { t with
            answers := t.answers ++ [⟨question.qid, selectedAnswer, isCorrect, points, now⟩],
            score := t.score + points },
          incrementUsage db question.qid)
      else (Except.error SubmitError.incrementFailed, t, db)

/-- testSchema.methods.completeTest (models/Test.js lines 165-184). The
update of testEndTime on the owning user document is a separate write to the
user collection and is modelled where user state matters. -/
def Test.completeTest (t : Test) (now : Nat) : Test :=
  if t.isCompleted then t
  else
    match t.startedAt with
    | some s =>
      { t with isCompleted := true, completedAt := some now, timeSpent := (now - s) / 1000 }
    | none => { t with isCompleted := true, completedAt := some now }

/-- JavaScript Math.round on a nonnegative rational: floor of x + 1/2. -/
def jsRound (x : ℚ) : Int := Int.floor (x + 1 / 2)

/-- Record produced by testSchema.methods.getResults. -/
structure TestResults where
  totalQuestions : Nat
  answeredQuestions : Nat
  correctAnswers : Nat
  score : Nat
  maxScore : Nat
  percentage : ℚ
  timeSpent : Nat
  isCompleted : Bool
  startedAt : Option Nat
  completedAt : Option Nat
deriving DecidableEq

/-- testSchema.methods.getResults (models/Test.js lines 187-205). -/
def Test.getResults (t : Test) : TestResults :=
  let totalQuestions := t.questions.length
  let answeredQuestions := t.answers.length
  let correctAnswers := (t.answers.filter (fun a => a.isCorrect)).length
  let percentage : ℚ :=
    if totalQuestions > 0 then (correctAnswers : ℚ) / (totalQuestions : ℚ) * 100 else 0
  ⟨totalQuestions, answeredQuestions, correctAnswers, t.score, t.maxScore,
    (jsRound (percentage * 100) : ℚ) / 100, t.timeSpent, t.isCompleted,
    t.startedAt, t.completedAt⟩

/-- userSchema.methods.isTestExpired (models/User.js lines 100-107): true
when now is strictly past testStartTime plus testDuration minutes. -/
def User.isTestExpired (u : User) (testDuration : Nat) (now : Nat) : Bool :=
  match u.testStartTime with
  | none => false
  | some s => now > s + testDuration * 60 * 1000

/-- testSchema.methods.getCurrentQuestion composed with getQuestion
(models/Test.js lines 85-119): none when every question is answered,
otherwise the question document at index answers.length; an error when that
document is missing from the collection. -/
def Test.getCurrentQuestion (t : Test) (db : List Question) :
    Except Unit (Option Question) :=
  if t.answers.length ≥ t.questions.length then Except.ok none
  else
    match findById db t.questions[t.answers.length]? with
    | none => Except.error ()
    | some q => Except.ok (some q)

/-- Sum of the points of a list of answers, the quantity the score field is
meant to track. -/
def sumPoints (l : List Answer) : Nat := (l.map (fun a => a.points)).sum

/-- Outcomes of the startTest controller action. -/
inductive StartOutcome where
  | errTestNotFound
  | errAlreadyStarted
  | errAlreadyCompleted
  | ok
deriving DecidableEq

/-- startTest of controllers/testController.js (lines 76-150): the state
change on the user and test documents when the middleware checks have
already passed; request metadata is recorded on the test. -/
def startTest (user : User) (test : Test) (now : Nat) (ip : String)
    (agent : String) : StartOutcome × User × Test :=
  if user.testId = none then (StartOutcome.errTestNotFound, user, test)
  else if user.hasStartedTest then (StartOutcome.errAlreadyStarted, user, test)
  else if test.isCompleted then (StartOutcome.errAlreadyCompleted, user, test)
  else
    (StartOutcome.ok,
      { user with hasStartedTest := true, testStartTime := some now },
      { test with startedAt := some now, ipAddress := some ip, userAgent := some agent })

/-- HTTP-level outcomes of the submitAnswer controller action; the time
expired response carries the results of the force-completed test. -/
inductive CtrlSubmitOutcome where
  | errTestNotStarted
  | errTestCompleted
  | errTimeExpired (results : TestResults)
  | errInvalidSequence
  | errSubmissionFailed
  | ok (isCorrect : Bool) (points : Nat) (isCompletedNow : Bool)
deriving DecidableEq

/-- submitAnswer of controllers/testController.js (lines 217-315): guards on
hasStartedTest and isCompleted, the per-candidate time check that
force-completes the test on expiry, the model-level submit, and the
auto-completion when no question remains. The generic catch maps the
invalid-sequence message to a 400 response and every other throw to a 500
response. -/
def ctrlSubmitAnswer (user : User) (test : Test) (db : List Question)
    (settings : Settings) (questionIndex selectedAnswer : Nat) (now : Nat)
    (incrementOk : Bool) : CtrlSubmitOutcome × Test × List Question :=
  if user.hasStartedTest = false then (CtrlSubmitOutcome.errTestNotStarted, test, db)
  else if test.isCompleted then (CtrlSubmitOutcome.errTestCompleted, test, db)
  else if user.isTestExpired settings.testDuration now then
    (CtrlSubmitOutcome.errTimeExpired (test.completeTest now).getResults,
      test.completeTest now, db)
  else
    match test.submitAnswer db questionIndex selectedAnswer now incrementOk with
    | (Except.error SubmitError.invalidSequence, t', db') =>
      (CtrlSubmitOutcome.errInvalidSequence, t', db')
    | (Except.error _, t', db') => (CtrlSubmitOutcome.errSubmissionFailed, t', db')
    | (Except.ok r, t', db') =>
      match t'.getCurrentQuestion db' with
      | Except.error _ => (CtrlSubmitOutcome.errSubmissionFailed, t', db')
      | Except.ok (some _) => (CtrlSubmitOutcome.ok r.isCorrect r.points false, t', db')
      | Except.ok none =>
        (CtrlSubmitOutcome.ok r.isCorrect r.points true, t'.completeTest now, db')

/-- Outcomes of the stopTesting controller action; the ok case carries the
completedTests count of the response. -/
inductive StopOutcome where
  | errTestNotStarted
  | ok (completedTests : Nat)
deriving DecidableEq

/-- stopTesting of controllers/adminController.js (lines 219-255): rejects
when testing is not active; otherwise stops the window (stopTest of
models/Settings.js) and force-completes every test found with
isCompleted = false, leaving already completed tests untouched. -/
def stopTesting (s : Settings) (tests : List Test) (now : Nat) :
    StopOutcome × Settings × List Test :=
  if s.testStarted = false then (StopOutcome.errTestNotStarted, s, tests)
  else
    (StopOutcome.ok ((tests.filter (fun t => !t.isCompleted)).length),
      { s with testStarted := false, testEndTime := some now },
      tests.map (fun t => if t.isCompleted then t else t.completeTest now))

/-- Partial update record for the settings document: a field is some v when
the corresponding key is present in the request body. Only the keys of the
allowedUpdates whitelist of updateSettings (models/Settings.js lines
424-449) are represented, because every other body key is discarded by that
whitelist on every code path and can never reach the document. -/
structure SettingsUpdates where
  testDuration : Option Nat
  questionsPerTest : Option Nat
  allowLateSubmission : Option Bool
  showResultsImmediately : Option Bool
  showCorrectAnswers : Option Bool
  randomizeQuestions : Option Bool
  randomizeOptions : Option Bool
  maxAttempts : Option Nat
  passingScore : Option Nat
  instructions : Option String
  welcomeMessage : Option String
deriving DecidableEq

/-- Applies a present update value, keeping the old value otherwise. -/
def applyOpt {α : Type} (v : Option α) (old : α) : α :=
  match v with
  | none => old
  | some x => x

/-- settingsSchema.methods.updateSettings (models/Settings.js lines 424-449):
assigns every present whitelisted key and stamps lastModifiedBy with the
acting user. -/
def Settings.updateSettings (s : Settings) (u : SettingsUpdates) (userId : Nat) :
    Settings :=
  { s with
    testDuration := applyOpt u.testDuration s.testDuration,
    questionsPerTest := applyOpt u.questionsPerTest s.questionsPerTest,
    allowLateSubmission := applyOpt u.allowLateSubmission s.allowLateSubmission,
    showResultsImmediately := applyOpt u.showResultsImmediately s.showResultsImmediately,
    showCorrectAnswers := applyOpt u.showCorrectAnswers s.showCorrectAnswers,
    randomizeQuestions := applyOpt u.randomizeQuestions s.randomizeQuestions,
    randomizeOptions := applyOpt u.randomizeOptions s.randomizeOptions,
    maxAttempts := applyOpt u.maxAttempts s.maxAttempts,
    passingScore := applyOpt u.passingScore s.passingScore,
    instructions := applyOpt u.instructions s.instructions,
    welcomeMessage := applyOpt u.welcomeMessage s.welcomeMessage,
    lastModifiedBy := userId }

/-- Outcomes of the updateSettings controller action. -/
inductive UpdateOutcome where
  | errNotAllowed
  | ok
deriving DecidableEq

/-- updateSettings of controllers/adminController.js (lines 258-299): while
testing is active only the keys instructions, welcomeMessage and
showResultsImmediately survive the filter; if none of them is present the
request is rejected with no write; otherwise the filtered update is applied.
While testing is inactive the whole body is passed through. -/
def ctrlUpdateSettings (s : Settings) (body : SettingsUpdates) (userId : Nat) :
    UpdateOutcome × Settings :=
  if s.testStarted then
    if body.instructions = none ∧ body.welcomeMessage = none ∧
        body.showResultsImmediately = none then
      (UpdateOutcome.errNotAllowed, s)
    else
      (UpdateOutcome.ok,
        s.updateSettings
          { testDuration := none, questionsPerTest := none,
            allowLateSubmission := none,
            showResultsImmediately := body.showResultsImmediately,
            showCorrectAnswers := none, randomizeQuestions := none,
            randomizeOptions := none, maxAttempts := none, passingScore := none,
            instructions := body.instructions,
            welcomeMessage := body.welcomeMessage } userId)
  else (UpdateOutcome.ok, s.updateSettings body userId)

/-- Outcomes of the resetUserTest controller action; the user-not-found case
is outside the model because the user document is an argument here. -/
inductive ResetOutcome where
  | errNoTest
  | errTestCompleted
  | ok
deriving DecidableEq

/-- resetUserTest of controllers/adminController.js (lines 544-606) applied
to a found user: rejects when the user has no assigned test id or the test
is completed; otherwise clears the user test flags and, when the test
document exists, its answers, score and start timestamp. -/
def resetUserTest (user : User) (testDoc : Option Test) :
    ResetOutcome × User × Option Test :=
  if user.testId = none then (ResetOutcome.errNoTest, user, testDoc)
  else
    match testDoc with
    | some t =>
      if t.isCompleted then (ResetOutcome.errTestCompleted, user, some t)
      else
        (ResetOutcome.ok,
          { user with hasStartedTest := false, testStartTime := none, testEndTime := none },
          some { t with answers := [], score := 0, startedAt := none, isCompleted := false })
    | none =>
      (ResetOutcome.ok,
        { user with hasStartedTest := false, testStartTime := none, testEndTime := none },
        none)

/-- Mongo aggregation stage sample of size n over a match list: it returns
min n length documents of the match set in random order. The randomness is
represented by the order of the pool list, so one list order stands for one
possible draw of the aggregation. -/
def sample (matched : List Question) (n : Nat) : List Question :=
  matched.take n

/-- Active questions of a given difficulty: the match stage of
getQuestionsByDifficulty (utils/testGenerator.js lines 192-195). -/
def activeOfDifficulty (pool : List Question) (d : String) : List Question :=
  pool.filter (fun q => q.isActive && q.difficulty == d)

/-- Active questions whose id is not among used: the nin match stage of the
top-up aggregations (utils/testGenerator.js lines 158-166 and 202-210). -/
def activeNotUsed (pool : List Question) (used : List Nat) : List Question :=
  pool.filter (fun q => q.isActive && !(used.contains q.qid))

/-- getQuestionsByDifficulty (utils/testGenerator.js lines 188-221): sample
count questions of the difficulty; on a shortfall, top up from active
questions excluding only the ids already picked by this same call. -/
def getQuestionsByDifficulty (pool : List Question) (difficulty : String)
    (count : Nat) : List Question :=
  if count = 0 then []
  else
    let questions := sample (activeOfDifficulty pool difficulty) count
    if questions.length < count then
      questions ++
        sample (activeNotUsed pool (questions.map (fun q => q.qid)))
          (count - questions.length)
    else questions

/-- Exchange of the entries at positions i and j of a list: the
destructuring swap inside shuffleArray (utils/testGenerator.js line 232). -/
def listSwap {α : Type} (l : List α) (i j : Nat) : List α :=
  match l[i]?, l[j]? with
  | some x, some y => (l.set i y).set j x
  | _, _ => l

/-- Loop of the Fisher-Yates shuffle of shuffleArray: the counter runs from
length - 1 down to 1 and rnd i % (i + 1) plays the random draw
Math.floor(Math.random() * (i + 1)). -/
def fisherYatesAux {α : Type} (rnd : Nat → Nat) (l : List α) : Nat → List α
  | 0 => l
  | Nat.succ i => fisherYatesAux rnd (listSwap l (i + 1) (rnd (i + 1) % (i + 2))) i

/-- shuffleArray (utils/testGenerator.js lines 228-235) with the random
draws supplied by rnd. -/
def shuffleArray {α : Type} (rnd : Nat → Nat) (array : List α) : List α :=
  fisherYatesAux rnd array (array.length - 1)

/-- getBalancedRandomQuestions (utils/testGenerator.js lines 130-180).
Math.floor of totalQuestions times 0.4 is totalQuestions * 2 / 5 in natural
division. The three bucket calls run independently under Promise.all, so
each top-up excludes only the ids picked by its own call. On a combined
shortfall a final top-up excludes everything picked so far, then the
combined list is shuffled. -/
def getBalancedRandomQuestions (pool : List Question) (rnd : Nat → Nat)
    (totalQuestions : Nat) : List Question :=
  let easyCount := totalQuestions * 2 / 5
  let mediumCount := totalQuestions * 2 / 5
  let hardCount := totalQuestions - easyCount - mediumCount
  let easyQuestions := getQuestionsByDifficulty pool "easy" easyCount
  let mediumQuestions := getQuestionsByDifficulty pool "medium" mediumCount
  let hardQuestions := getQuestionsByDifficulty pool "hard" hardCount
  let allQuestions := easyQuestions ++ mediumQuestions ++ hardQuestions
  let final :=
    if allQuestions.length < totalQuestions then
      allQuestions ++
        sample (activeNotUsed pool (allQuestions.map (fun q => q.qid)))
          (totalQuestions - allQuestions.length)
    else allQuestions
  shuffleArray rnd final

/-- Positional-correspondence invariant of a test document: the answers list
never outruns the questions list and the answer at each index references the
question id stored at the same index. -/
def answersAligned (t : Test) : Prop :=
  t.answers.length ≤ t.questions.length ∧
    ∀ i, i < t.answers.length →
      (t.answers[i]?).map (fun a => a.questionId) = t.questions[i]?

/-- Sample question bank entry used by the concrete witnesses. -/
def q1 : Question := ⟨1, 2, 5, "easy", true, 0, "sample"⟩

/-- Question collection holding just the sample question. -/
def db1 : List Question := [q1]

/-- One-question in-progress test used by the concrete witnesses. -/
def test1 : Test := ⟨[1], [], 0, 5, false, some 0, none, 0, none, none⟩

/-- Completed test used by the idempotence witness. -/
def test2 : Test := ⟨[1], [⟨1, 2, true, 5, 10⟩], 5, 5, true, some 0, some 10, 1, none, none⟩

/-- Ten-question test with two submitted answers, matching the window-close
scenario of the spec. -/
def test6 : Test :=
  ⟨[1, 2, 3, 4, 5, 6, 7, 8, 9, 10],
    [⟨1, 0, true, 1, 10⟩, ⟨2, 1, false, 0, 20⟩],
    1, 10, false, some 0, none, 0, none, none⟩

/-- Candidate who has started the test at time zero. -/
def user1 : User := ⟨7, some 42, true, some 0, none⟩

/-- Active settings singleton with a 45 minute duration. -/
def settings1 : Settings :=
  ⟨45, true, 30, some 0, none, false, false, true, true, true, 1, 50,
    "read carefully", "welcome", true, 0⟩

/-- Update body carrying only the cosmetic instructions field. -/
def bodyC9 : SettingsUpdates :=
  ⟨none, none, none, none, none, none, none, none, none, some "updated", none⟩

/-- Pool of one easy and nine hard active questions: ten distinct active
questions in total, the generation target of the duplication
counterexample. -/
def cexPool : List Question :=
  [⟨1, 0, 1, "easy", true, 0, ""⟩,
   ⟨2, 0, 1, "hard", true, 0, ""⟩,
   ⟨3, 0, 1, "hard", true, 0, ""⟩,
   ⟨4, 0, 1, "hard", true, 0, ""⟩,
   ⟨5, 0, 1, "hard", true, 0, ""⟩,
   ⟨6, 0, 1, "hard", true, 0, ""⟩,
   ⟨7, 0, 1, "hard", true, 0, ""⟩,
   ⟨8, 0, 1, "hard", true, 0, ""⟩,
   ⟨9, 0, 1, "hard", true, 0, ""⟩,
   ⟨10, 0, 1, "hard", true, 0, ""⟩]

/-- Pool with five easy, five medium and two hard active questions, the
stratified-sampling scenario of the spec. -/
def scenarioPool : List Question :=
  [⟨1, 0, 1, "easy", true, 0, ""⟩,
   ⟨2, 0, 1, "easy", true, 0, ""⟩,
   ⟨3, 0, 1, "easy", true, 0, ""⟩,
   ⟨4, 0, 1, "easy", true, 0, ""⟩,
   ⟨5, 0, 1, "easy", true, 0, ""⟩,
   ⟨6, 0, 1, "medium", true, 0, ""⟩,
   ⟨7, 0, 1, "medium", true, 0, ""⟩,
   ⟨8, 0, 1, "medium", true, 0, ""⟩,
   ⟨9, 0, 1, "medium", true, 0, ""⟩,
   ⟨10, 0, 1, "medium", true, 0, ""⟩,
   ⟨11, 0, 1, "hard", true, 0, ""⟩,
   ⟨12, 0, 1, "hard", true, 0, ""⟩]

instance (t : Test) : Decidable (answersAligned t) := by
  unfold answersAligned
  infer_instance

theorem findById_qid {db : List Question} {i : Nat} {q : Question}
    (h : findById db (some i) = some q) : q.qid = i := by
  simp only [findById] at h
  have h2 := List.find?_some h
  simpa using h2

theorem findById_some {db : List Question} {o : Option Nat} {q : Question}
    (h : findById db o = some q) : ∃ i, o = some i ∧ q.qid = i := by
  cases o with
  | none => simp [findById] at h
  | some i => exact ⟨i, rfl, findById_qid h⟩

theorem completeTest_isCompleted (t : Test) (now : Nat) :
    (t.completeTest now).isCompleted = true := by
  cases hb : t.isCompleted with
  | true => simp [Test.completeTest, hb]
  | false => cases hs : t.startedAt <;> simp [Test.completeTest, hb, hs]

theorem completeTest_answers (t : Test) (now : Nat) :
    (t.completeTest now).answers = t.answers := by
  cases hb : t.isCompleted with
  | true => simp [Test.completeTest, hb]
  | false => cases hs : t.startedAt <;> simp [Test.completeTest, hb, hs]

theorem completeTest_questions (t : Test) (now : Nat) :
    (t.completeTest now).questions = t.questions := by
  cases hb : t.isCompleted with
  | true => simp [Test.completeTest, hb]
  | false => cases hs : t.startedAt <;> simp [Test.completeTest, hb, hs]

theorem aligned_congr (t t' : Test) (h : answersAligned t)
    (hq : t'.questions = t.questions) (ha : t'.answers = t.answers) :
    answersAligned t' := by
  unfold answersAligned at h ⊢
  rw [hq, ha]
  exact h

/-- C2: for an in-progress session (started and not completed), submitAnswer
at a position other than answers.length fails with the out-of-sequence error
and returns the test document and the question collection unchanged. -/
theorem submit_out_of_sequence_rejected
    (t : Test) (db : List Question) (p sel now : Nat) (ok : Bool)
    (_hstarted : t.startedAt ≠ none) (hc : t.isCompleted = false)
    (hp : p ≠ t.answers.length) :
    t.submitAnswer db p sel now ok =
      (Except.error SubmitError.invalidSequence, t, db) := by
  simp [Test.submitAnswer, hc, hp]

theorem submit_out_of_sequence_rejected_witness :
    test1.startedAt ≠ none ∧ test1.isCompleted = false ∧
      (1 : Nat) ≠ test1.answers.length ∧
      test1.submitAnswer db1 1 0 5000 true =
        (Except.error SubmitError.invalidSequence, test1, db1) :=
  ⟨by decide, by decide, by decide,
    submit_out_of_sequence_rejected test1 db1 1 0 5000 true (by decide) (by decide)
      (by decide)⟩

/-- C5: completing an already completed test is a no-op that returns the
document unchanged, so completedAt, score, answers and timeSpent keep their
values and no error is raised. -/
theorem complete_test_idempotent (t : Test) (now : Nat)
    (h : t.isCompleted = true) : t.completeTest now = t := by
  simp [Test.completeTest, h]

theorem complete_test_idempotent_witness :
    test2.isCompleted = true ∧ test2.completeTest 99999 = test2 :=
  ⟨by decide, complete_test_idempotent test2 99999 (by decide)⟩

/-- C7 counterexample: on an in-progress one-question test, a submission at
the current position with the usage-counter increment failing throws
incrementFailed, and the persisted test still has no answers: the increment
failure fails the submission and the appended answer is not kept. -/
theorem submit_increment_failure_counterexample :
    test1.isCompleted = false ∧ test1.answers.length = 0 ∧
      test1.submitAnswer db1 0 2 5000 false =
        (Except.error SubmitError.incrementFailed, test1, db1) := by
  refine ⟨by decide, by decide, ?_⟩
  rfl

/-- C7 amended: the usage-counter update is not best-effort: when the
awaited incrementUsage save fails, submitAnswer itself fails with
incrementFailed and the persisted test and question collection are
unchanged, so the pushed answer is lost. -/
theorem submit_increment_failure_fails_submission
    (t : Test) (db : List Question) (sel now : Nat) (q : Question)
    (hc : t.isCompleted = false)
    (hq : findById db t.questions[t.answers.length]? = some q) :
    t.submitAnswer db t.answers.length sel now false =
      (Except.error SubmitError.incrementFailed, t, db) := by
  simp [Test.submitAnswer, hc, hq]

theorem submit_increment_failure_witness :
    test1.isCompleted = false ∧
      findById db1 test1.questions[test1.answers.length]? = some q1 ∧
      test1.submitAnswer db1 test1.answers.length 2 5000 false =
        (Except.error SubmitError.incrementFailed, test1, db1) :=
  ⟨by decide, by decide,
    submit_increment_failure_fails_submission test1 db1 2 5000 q1 (by decide) (by decide)⟩

/-- C9 counterexample: while testing is active, an update request carrying
only the allowed cosmetic instructions key still rewrites the
non-whitelisted field lastModifiedBy, so not every non-whitelisted field
keeps its value. -/
theorem settings_update_modifies_last_modifier :
    settings1.testStarted = true ∧ settings1.lastModifiedBy = 0 ∧
      (ctrlUpdateSettings settings1 bodyC9 1).2.lastModifiedBy = 1 := by
  refine ⟨by decide, by decide, ?_⟩
  rfl

/-- C9 amended: while testing is active, an update request can change only
instructions, welcomeMessage, showResultsImmediately and the audit field
lastModifiedBy; testDuration, questionsPerTest and every other settings
field keep their previous values. -/
theorem settings_structural_fields_frozen
    (s : Settings) (body : SettingsUpdates) (userId : Nat)
    (h : s.testStarted = true) :
    (ctrlUpdateSettings s body userId).2.testDuration = s.testDuration ∧
    (ctrlUpdateSettings s body userId).2.questionsPerTest = s.questionsPerTest ∧
    (ctrlUpdateSettings s body userId).2.testStarted = s.testStarted ∧
    (ctrlUpdateSettings s body userId).2.testStartTime = s.testStartTime ∧
    (ctrlUpdateSettings s body userId).2.testEndTime = s.testEndTime ∧
    (ctrlUpdateSettings s body userId).2.allowLateSubmission = s.allowLateSubmission ∧
    (ctrlUpdateSettings s body userId).2.showCorrectAnswers = s.showCorrectAnswers ∧
    (ctrlUpdateSettings s body userId).2.randomizeQuestions = s.randomizeQuestions ∧
    (ctrlUpdateSettings s body userId).2.randomizeOptions = s.randomizeOptions ∧
    (ctrlUpdateSettings s body userId).2.maxAttempts = s.maxAttempts ∧
    (ctrlUpdateSettings s body userId).2.passingScore = s.passingScore ∧
    (ctrlUpdateSettings s body userId).2.isActive = s.isActive := by
  unfold ctrlUpdateSettings
  rw [h]
  by_cases hcond : body.instructions = none ∧ body.welcomeMessage = none ∧
      body.showResultsImmediately = none
  · simp [hcond, h]
  · simp [hcond, h, Settings.updateSettings, applyOpt]

theorem settings_structural_fields_frozen_witness :
    settings1.testStarted = true ∧
      (ctrlUpdateSettings settings1 bodyC9 1).2.testDuration =
        settings1.testDuration ∧
      (ctrlUpdateSettings settings1 bodyC9 1).2.questionsPerTest =
        settings1.questionsPerTest :=
  ⟨by decide, (settings_structural_fields_frozen settings1 bodyC9 1 (by decide)).1,
    (settings_structural_fields_frozen settings1 bodyC9 1 (by decide)).2.1⟩

/-- C10: administrative reset of a not-completed test succeeds, clears the
answers list, the score and the start timestamp together with the user
started-test flags, and leaves the assigned question list and maxScore
unchanged. -/
theorem reset_clears_progress_keeps_questions
    (user : User) (t : Test) (tid : Nat)
    (hid : user.testId = some tid) (hc : t.isCompleted = false) :
    resetUserTest user (some t) =
      (ResetOutcome.ok,
        { user with hasStartedTest := false, testStartTime := none, testEndTime := none },
        some { t with answers := [], score := 0, startedAt := none, isCompleted := false }) ∧
    ∀ u' t', resetUserTest user (some t) = (ResetOutcome.ok, u', some t') →
      t'.questions = t.questions ∧ t'.maxScore = t.maxScore ∧ t'.answers = [] ∧
        t'.score = 0 ∧ t'.startedAt = none ∧ u'.hasStartedTest = false ∧
        u'.testStartTime = none := by
  have heq : resetUserTest user (some t) =
      (ResetOutcome.ok,
        { user with hasStartedTest := false, testStartTime := none, testEndTime := none },
        some { t with answers := [], score := 0, startedAt := none, isCompleted := false }) := by
    simp [resetUserTest, hid, hc]
  refine ⟨heq, ?_⟩
  intro u' t' h
  rw [heq] at h
  simp only [Prod.mk.injEq, Option.some.injEq] at h
  obtain ⟨-, hu, ht⟩ := h
  subst hu
  subst ht
  exact ⟨rfl, rfl, rfl, rfl, rfl, rfl, rfl⟩

theorem reset_clears_progress_witness :
    user1.testId = some 42 ∧ test6.isCompleted = false ∧
      resetUserTest user1 (some test6) =
        (ResetOutcome.ok,
          { user1 with hasStartedTest := false, testStartTime := none, testEndTime := none },
          some { test6 with answers := [], score := 0, startedAt := none, isCompleted := false }) :=
  ⟨by decide, by decide,
    (reset_clears_progress_keeps_questions user1 test6 42 (by decide) (by decide)).1⟩

/-- C3: a successful submission at the current position resolves the stored
question, marks it correct exactly when the selected option equals its
correctAnswer, awards the question points or zero, appends exactly one
answer record with those values, adds the award to the score, and thereby
keeps the score equal to the sum of the answer points. -/
theorem submit_success_scoring
    (t : Test) (db : List Question) (sel now : Nat) (q : Question)
    (hc : t.isCompleted = false)
    (hq : findById db t.questions[t.answers.length]? = some q) :
    t.submitAnswer db t.answers.length sel now true =
      (Except.ok ⟨sel == q.correctAnswer,
          if sel == q.correctAnswer then q.points else 0, q.correctAnswer, q.explanation⟩,
        { t with
          answers := t.answers ++
            [⟨q.qid, sel, sel == q.correctAnswer,
              if sel == q.correctAnswer then q.points else 0, now⟩],
          score := t.score + (if sel == q.correctAnswer then q.points else 0) },
        incrementUsage db q.qid) ∧
    ((sel == q.correctAnswer) = true ↔ sel = q.correctAnswer) ∧
    (t.score = sumPoints t.answers →
      t.score + (if sel == q.correctAnswer then q.points else 0) =
        sumPoints (t.answers ++
          [⟨q.qid, sel, sel == q.correctAnswer,
            if sel == q.correctAnswer then q.points else 0, now⟩])) := by
  refine ⟨?_, by simp, ?_⟩
  · simp [Test.submitAnswer, hc, hq]
  · intro hsum
    simp [sumPoints, hsum]

theorem submit_success_scoring_witness :
    test1.isCompleted = false ∧
      findById db1 test1.questions[test1.answers.length]? = some q1 ∧
      test1.submitAnswer db1 test1.answers.length 2 5000 true =
        (Except.ok ⟨true, 5, 2, "sample"⟩,
          { test1 with answers := [⟨1, 2, true, 5, 5000⟩], score := 5 },
          incrementUsage db1 1) :=
  ⟨by decide, by decide, by
    have h := (submit_success_scoring test1 db1 2 5000 q1 (by decide) (by decide)).1
    simpa using h⟩

/-- C4: a submission for a started, not completed test whose per-candidate
elapsed time exceeds the configured duration fails with the time-expired
response and force-completes the session, with timeSpent the actual elapsed
seconds rather than the nominal duration. -/
theorem submit_time_expired_force_completes
    (user : User) (test : Test) (db : List Question) (settings : Settings)
    (qi sel now s : Nat) (ok : Bool)
    (hstart : user.hasStartedTest = true) (hc : test.isCompleted = false)
    (hu : user.testStartTime = some s) (ht : test.startedAt = some s)
    (helapsed : s + settings.testDuration * 60 * 1000 < now) :
    ctrlSubmitAnswer user test db settings qi sel now ok =
      (CtrlSubmitOutcome.errTimeExpired (test.completeTest now).getResults,
        test.completeTest now, db) ∧
    (test.completeTest now).isCompleted = true ∧
    (test.completeTest now).timeSpent = (now - s) / 1000 := by
  have hx : user.isTestExpired settings.testDuration now = true := by
    simp [User.isTestExpired, hu]
    omega
  refine ⟨?_, completeTest_isCompleted test now, ?_⟩
  · simp [ctrlSubmitAnswer, hstart, hc, hx]
  · simp [Test.completeTest, hc, ht]

theorem submit_time_expired_witness :
    settings1.testDuration = 45 ∧ test1.startedAt = some 0 ∧
      (test1.completeTest 2760000).isCompleted = true ∧
      (test1.completeTest 2760000).timeSpent = 2760 ∧ (2760 : Nat) ≠ 45 * 60 := by
  have h := submit_time_expired_force_completes user1 test1 db1 settings1 0 0 2760000 0
    true (by decide) (by decide) (by decide) (by decide) (by decide)
  exact ⟨by decide, by decide, h.2.1, h.2.2, by decide⟩

/-- C6: closing the testing window force-completes every test that is not
yet completed, so no test remains incomplete afterwards, and the post-close
results of every swept test report the number of answers submitted so far
together with isCompleted true. -/
theorem stop_testing_completes_all
    (s : Settings) (tests : List Test) (now : Nat) (h : s.testStarted = true) :
    (stopTesting s tests now).2.2 =
      tests.map (fun t => if t.isCompleted then t else t.completeTest now) ∧
    (∀ t', t' ∈ (stopTesting s tests now).2.2 → t'.isCompleted = true) ∧
    (∀ t, t ∈ tests →
      (if t.isCompleted then t else t.completeTest now).getResults.answeredQuestions =
        t.answers.length ∧
      (if t.isCompleted then t else t.completeTest now).getResults.isCompleted = true) := by
  have heq : (stopTesting s tests now).2.2 =
      tests.map (fun t => if t.isCompleted then t else t.completeTest now) := by
    simp [stopTesting, h]
  refine ⟨heq, ?_, ?_⟩
  · intro t' ht'
    rw [heq] at ht'
    obtain ⟨t, htmem, rfl⟩ := List.mem_map.mp ht'
    by_cases hb : t.isCompleted = true
    · simp [hb]
    · simp [hb, completeTest_isCompleted]
  · intro t htmem
    by_cases hb : t.isCompleted = true
    · exact ⟨by simp [hb, Test.getResults], by simp [hb, Test.getResults, hb]⟩
    · exact ⟨by simp [hb, Test.getResults, completeTest_answers],
        by simp [hb, Test.getResults, completeTest_isCompleted]⟩

theorem stop_testing_witness :
    settings1.testStarted = true ∧ test6.questions.length = 10 ∧
      test6.answers.length = 2 ∧
      (if test6.isCompleted then test6 else test6.completeTest 2760000).getResults.answeredQuestions = 2 ∧
      (if test6.isCompleted then test6 else test6.completeTest 2760000).getResults.isCompleted = true ∧
      (∀ t', t' ∈ (stopTesting settings1 [test6] 2760000).2.2 → t'.isCompleted = true) := by
  have h := stop_testing_completes_all settings1 [test6] 2760000 (by decide)
  exact ⟨by decide, by decide, by decide,
    ((h.2.2 test6 (by simp)).1).trans (by decide), (h.2.2 test6 (by simp)).2, h.2.1⟩

/-- C1: the positional-correspondence invariant (the answers list never
outruns the questions list and each answer references the question id stored
at its own index) is preserved by the start, submitAnswer, completeTest and
administrative reset operations. -/
theorem answers_positional_invariant
    (t : Test) (h : answersAligned t) :
    (∀ u now ip agent, answersAligned (startTest u t now ip agent).2.2) ∧
    (∀ db i sel now ok, answersAligned (t.submitAnswer db i sel now ok).2.1) ∧
    (∀ now, answersAligned (t.completeTest now)) ∧
    (∀ u t', (resetUserTest u (some t)).2.2 = some t' → answersAligned t') := by
  refine ⟨?_, ?_, ?_, ?_⟩
  · intro u now ip agent
    by_cases h1 : u.testId = none
    · simpa [startTest, h1] using h
    · by_cases h2 : u.hasStartedTest = true
      · simpa [startTest, h1, h2] using h
      · by_cases h3 : t.isCompleted = true
        · simpa [startTest, h1, h2, h3] using h
        · exact aligned_congr t _ h (by simp [startTest, h1, h2, h3])
            (by simp [startTest, h1, h2, h3])
  · intro db i sel now ok
    by_cases hb : t.isCompleted = true
    · simpa [Test.submitAnswer, hb] using h
    · by_cases hi : i = t.answers.length
      · subst hi
        cases hfq : findById db t.questions[t.answers.length]? with
        | none => simpa [Test.submitAnswer, hb, hfq] using h
        | some q =>
          cases ok with
          | false => simpa [Test.submitAnswer, hb, hfq] using h
          | true =>
            obtain ⟨j, hj, hquid⟩ := findById_some hfq
            have hlen : t.answers.length < t.questions.length := by
              by_contra hcon
              push_neg at hcon
              rw [List.getElem?_eq_none hcon] at hj
              cases hj
            have hred : (t.submitAnswer db t.answers.length sel now true).2.1 =
                { t with
                  answers := t.answers ++
                    [⟨q.qid, sel, sel == q.correctAnswer,
                      if (sel == q.correctAnswer) then q.points else 0, now⟩],
                  score := t.score +
                    (if (sel == q.correctAnswer) then q.points else 0) } := by
              simp [Test.submitAnswer, hb, hfq]
            rw [hred]
            constructor
            · simpa using Nat.succ_le_of_lt hlen
            · intro k hk
              simp only [List.length_append, List.length_cons, List.length_nil] at hk
              rcases Nat.lt_or_ge k t.answers.length with hk2 | hk2
              · have e1 : (t.answers ++
                    [(⟨q.qid, sel, sel == q.correctAnswer,
                      if (sel == q.correctAnswer) then q.points else 0, now⟩ : Answer)])[k]? =
                    t.answers[k]? := by
                  rw [List.getElem?_append]
                  simp [hk2]
                show ((t.answers ++ _)[k]?).map _ = t.questions[k]?
                rw [e1]
                exact h.2 k hk2
              · have hkeq : k = t.answers.length := by omega
                subst hkeq
                show ((t.answers ++ _)[t.answers.length]?).map _ = _
                rw [List.getElem?_append_right hk2, hj]
                simp [hquid]
      · simpa [Test.submitAnswer, hb, hi] using h
  · intro now
    exact aligned_congr t _ h (completeTest_questions t now) (completeTest_answers t now)
  · intro u t' heq
    by_cases h1 : u.testId = none
    · simp [resetUserTest, h1] at heq
      rw [← heq]
      exact h
    · by_cases h2 : t.isCompleted = true
      · simp [resetUserTest, h1, h2] at heq
        rw [← heq]
        exact h
      · simp [resetUserTest, h1, h2] at heq
        rw [← heq]
        exact ⟨by simp, by intro k hk; simp at hk⟩

theorem answers_positional_invariant_witness :
    answersAligned test1 ∧
      answersAligned ((test1.submitAnswer db1 0 2 5000 true).2.1) ∧
      answersAligned (test1.completeTest 2760000) :=
  ⟨by decide, (answers_positional_invariant test1 (by decide)).2.1 db1 0 2 5000 true,
    (answers_positional_invariant test1 (by decide)).2.2.1 2760000⟩

theorem cons_set_perm {α : Type} :
    ∀ (t : List α) (k : Nat) (y a : α), t[k]? = some y →
      List.Perm (y :: t.set k a) (a :: t)
  | [], k, y, a, h => by simp at h
  | b :: s, 0, y, a, h => by
      simp only [List.getElem?_cons_zero, Option.some.injEq] at h
      subst h
      simpa using List.Perm.swap a b s
  | b :: s, k + 1, y, a, h => by
      simp only [List.getElem?_cons_succ] at h
      have ih := cons_set_perm s k y a h
      have h1 : (b :: s).set (k + 1) a = b :: s.set k a := rfl
      rw [h1]
      exact List.Perm.trans (List.Perm.swap b y (s.set k a))
        (List.Perm.trans (List.Perm.cons b ih) (List.Perm.swap a b s))

theorem listSwap_perm {α : Type} :
    ∀ (l : List α) (i j : Nat), List.Perm (listSwap l i j) l
  | [], i, j => by simp [listSwap]
  | a :: t, 0, 0 => by simp [listSwap]
  | a :: t, 0, j + 1 => by
      cases ht : t[j]? with
      | none => simp [listSwap, ht]
      | some y =>
        have := cons_set_perm t j y a ht
        simpa [listSwap, ht] using this
  | a :: t, i + 1, 0 => by
      cases ht : t[i]? with
      | none => simp [listSwap, ht]
      | some x =>
        have := cons_set_perm t i x a ht
        simpa [listSwap, ht] using this
  | a :: t, i + 1, j + 1 => by
      cases hx : t[i]? with
      | none => simp [listSwap, hx]
      | some x =>
        cases hy : t[j]? with
        | none => simp [listSwap, hx, hy]
        | some y =>
          have ih := listSwap_perm t i j
          simp only [listSwap, hx, hy] at ih
          simpa [listSwap, hx, hy] using List.Perm.cons a ih

theorem fisherYatesAux_perm {α : Type} (rnd : Nat → Nat) :
    ∀ (n : Nat) (l : List α), List.Perm (fisherYatesAux rnd l n) l
  | 0, l => List.Perm.refl l
  | Nat.succ i, l =>
      List.Perm.trans (fisherYatesAux_perm rnd i _)
        (listSwap_perm l (i + 1) (rnd (i + 1) % (i + 2)))

theorem shuffleArray_perm {α : Type} (rnd : Nat → Nat) (l : List α) :
    List.Perm (shuffleArray rnd l) l :=
  fisherYatesAux_perm rnd (l.length - 1) l

theorem getQuestionsByDifficulty_enough (pool : List Question) (d : String)
    (count : Nat) (h : count ≤ (activeOfDifficulty pool d).length) :
    getQuestionsByDifficulty pool d count =
      (activeOfDifficulty pool d).take count := by
  by_cases h0 : count = 0
  · subst h0
    simp [getQuestionsByDifficulty]
  · have hl : ((activeOfDifficulty pool d).take count).length = count := by
      simp [List.length_take]
      omega
    simp [getQuestionsByDifficulty, sample, h0, hl]

theorem bucket_sublist (pool : List Question) (d : String) (n : Nat) :
    List.Sublist ((activeOfDifficulty pool d).take n) pool :=
  List.Sublist.trans (List.take_sublist n (activeOfDifficulty pool d))
    (List.filter_sublist pool)

theorem bucket_nodup (pool : List Question) (d : String) (n : Nat)
    (hnodup : (pool.map (fun q => q.qid)).Nodup) :
    (((activeOfDifficulty pool d).take n).map (fun q => q.qid)).Nodup :=
  List.Nodup.sublist (List.Sublist.map _ (bucket_sublist pool d n)) hnodup

theorem bucket_mem {pool : List Question} {d : String} {n : Nat} {q : Question}
    (h : q ∈ (activeOfDifficulty pool d).take n) :
    q ∈ pool ∧ q.difficulty = d := by
  have h2 := List.mem_of_mem_take h
  unfold activeOfDifficulty at h2
  have h3 := List.mem_filter.mp h2
  refine ⟨h3.1, ?_⟩
  have h4 := h3.2
  simp only [Bool.and_eq_true, beq_iff_eq] at h4
  exact h4.2

theorem bucket_disjoint (pool : List Question) (d₁ d₂ : String) (n₁ n₂ : Nat)
    (hnodup : (pool.map (fun q => q.qid)).Nodup) (hd : d₁ ≠ d₂) :
    List.Disjoint
      (((activeOfDifficulty pool d₁).take n₁).map (fun q => q.qid))
      (((activeOfDifficulty pool d₂).take n₂).map (fun q => q.qid)) := by
  intro x hx₁ hx₂
  obtain ⟨q₁, hq₁, hxq₁⟩ := List.mem_map.mp hx₁
  obtain ⟨q₂, hq₂, hxq₂⟩ := List.mem_map.mp hx₂
  obtain ⟨hp₁, hdq₁⟩ := bucket_mem hq₁
  obtain ⟨hp₂, hdq₂⟩ := bucket_mem hq₂
  have heq : q₁ = q₂ :=
    List.inj_on_of_nodup_map hnodup hp₁ hp₂ (hxq₁.trans hxq₂.symm)
  apply hd
  rw [← hdq₁, heq, hdq₂]

/-- C8 counterexample: a pool of ten distinct active questions, one easy and
nine hard, with a generation target of ten, yields a generated list of ten
entries containing a duplicated question id: each per-bucket top-up excludes
only the ids picked by its own bucket call, so a question picked by two
different bucket calls appears twice. -/
theorem balanced_generation_duplicate_counterexample :
    (cexPool.filter (fun q => q.isActive)).length = 10 ∧
    (cexPool.map (fun q => q.qid)).Nodup ∧
    (getBalancedRandomQuestions cexPool (fun i => i) 10).length = 10 ∧
    ¬ ((getBalancedRandomQuestions cexPool (fun i => i) 10).map (fun q => q.qid)).Nodup := by
  decide

/-- C8 amended: when every difficulty bucket holds at least its target count
(40 percent easy, 40 percent medium, remainder hard, as in the
five-easy five-medium two-hard scenario with a target of ten), stratified
generation over a pool with distinct question ids returns exactly the target
number of questions with no duplicate ids; when a bucket is short, the
per-bucket top-up excludes only that same call's picks, so cross-bucket
duplicates become possible. -/
theorem balanced_generation_no_shortfall
    (pool : List Question) (rnd : Nat → Nat) (k : Nat)
    (hnodup : (pool.map (fun q => q.qid)).Nodup)
    (he : k * 2 / 5 ≤ (activeOfDifficulty pool "easy").length)
    (hm : k * 2 / 5 ≤ (activeOfDifficulty pool "medium").length)
    (hh : k - k * 2 / 5 - k * 2 / 5 ≤ (activeOfDifficulty pool "hard").length) :
    (getBalancedRandomQuestions pool rnd k).length = k ∧
    ((getBalancedRandomQuestions pool rnd k).map (fun q => q.qid)).Nodup := by
  have heasy := getQuestionsByDifficulty_enough pool "easy" (k * 2 / 5) he
  have hmed := getQuestionsByDifficulty_enough pool "medium" (k * 2 / 5) hm
  have hhard := getQuestionsByDifficulty_enough pool "hard"
    (k - k * 2 / 5 - k * 2 / 5) hh
  have hlenE : (getQuestionsByDifficulty pool "easy" (k * 2 / 5)).length = k * 2 / 5 := by
    rw [heasy]
    simp [List.length_take]
    omega
  have hlenM : (getQuestionsByDifficulty pool "medium" (k * 2 / 5)).length = k * 2 / 5 := by
    rw [hmed]
    simp [List.length_take]
    omega
  have hlenH : (getQuestionsByDifficulty pool "hard"
      (k - k * 2 / 5 - k * 2 / 5)).length = k - k * 2 / 5 - k * 2 / 5 := by
    rw [hhard]
    simp [List.length_take]
    omega
  have hallLen : (getQuestionsByDifficulty pool "easy" (k * 2 / 5) ++
      getQuestionsByDifficulty pool "medium" (k * 2 / 5) ++
      getQuestionsByDifficulty pool "hard" (k - k * 2 / 5 - k * 2 / 5)).length = k := by
    simp only [List.length_append, hlenE, hlenM, hlenH]
    omega
  have hred : getBalancedRandomQuestions pool rnd k =
      shuffleArray rnd (getQuestionsByDifficulty pool "easy" (k * 2 / 5) ++
        getQuestionsByDifficulty pool "medium" (k * 2 / 5) ++
        getQuestionsByDifficulty pool "hard" (k - k * 2 / 5 - k * 2 / 5)) := by
    simp only [getBalancedRandomQuestions, hallLen, Nat.lt_irrefl, if_false]
  have hperm := shuffleArray_perm rnd
    (getQuestionsByDifficulty pool "easy" (k * 2 / 5) ++
      getQuestionsByDifficulty pool "medium" (k * 2 / 5) ++
      getQuestionsByDifficulty pool "hard" (k - k * 2 / 5 - k * 2 / 5))
  rw [hred]
  constructor
  · rw [hperm.length_eq, hallLen]
  · rw [List.Perm.nodup_iff (hperm.map (fun q => q.qid))]
    rw [heasy, hmed, hhard]
    simp only [List.map_append]
    refine List.nodup_append.mpr ⟨List.nodup_append.mpr
      ⟨bucket_nodup pool "easy" _ hnodup, bucket_nodup pool "medium" _ hnodup,
        bucket_disjoint pool "easy" "medium" _ _ hnodup (by decide)⟩,
      bucket_nodup pool "hard" _ hnodup, ?_⟩
    rw [List.disjoint_append_left]
    exact ⟨bucket_disjoint pool "easy" "hard" _ _ hnodup (by decide),
      bucket_disjoint pool "medium" "hard" _ _ hnodup (by decide)⟩

theorem balanced_generation_no_shortfall_witness :
    (scenarioPool.map (fun q => q.qid)).Nodup ∧
    (activeOfDifficulty scenarioPool "easy").length = 5 ∧
    (activeOfDifficulty scenarioPool "medium").length = 5 ∧
    (activeOfDifficulty scenarioPool "hard").length = 2 ∧
    (getBalancedRandomQuestions scenarioPool (fun i => i) 10).length = 10 ∧
    ((getBalancedRandomQuestions scenarioPool (fun i => i) 10).map
      (fun q => q.qid)).Nodup :=
  ⟨by decide, by decide, by decide, by decide,
    (balanced_generation_no_shortfall scenarioPool (fun i => i) 10 (by decide)
      (by decide) (by decide) (by decide)).1,
    (balanced_generation_no_shortfall scenarioPool (fun i => i) 10 (by decide)
      (by decide) (by decide) (by decide)).2⟩
